import Mathlib

/-!
Verification development for the temporal-expression parser and relative-time
formatter of the reminder bot (`src/reminder/util.py`).

The Python module is shallowly embedded:
  * the four regular expressions (`timedelta_regex`, `day_regex`, `date_regex`,
    `time_regex`) become executable prefix matchers over `List Char`,
    reproducing Python `re.match` semantics (anchored at the start, greedy
    quantifiers with the backtracking behaviour worked out per pattern);
  * `datetime` values become day-number + second-of-day pairs with a fixed
    UTC offset modelling the attached tzinfo;
  * `dateutil.relativedelta` construction and addition become `applyRel`;
  * Python exceptions become an `Except PyError` result.
-/

/-- Python exceptions that the embedded code can raise. -/
inductive PyError where
  | indexError : PyError
  | valueError : PyError
  | overflowError : PyError
  | keyError : PyError
  /-- `maubot`'s ArgumentSyntaxError, carrying the user-facing message
  (`show_usage=False` carries no further data relevant here). -/
  | argumentSyntaxError (msg : List Char) : PyError
deriving DecidableEq, Repr

/-- A timezone, modelled as a name plus its fixed UTC offset in minutes
(the offset pytz reports at the moments relevant to a call). -/
structure Tz where
  name : List Char
  offsetMin : Int
deriving DecidableEq, Repr

/-- `pytz.UTC`. -/
def pytzUTC : Tz := ⟨"UTC".toList, 0⟩

/-- The instants (seconds since 1970-01-01T00:00:00Z) observed by the up to
three `datetime.now` calls a single `DateArgument.match` performs, plus the
UTC offset of the system-local timezone used by the naive `datetime.now()`
reads on the weekday-table line.
  * `tA`: the `datetime.now()` evaluated for the "tod" dictionary value;
  * `tB`: the `datetime.now()` evaluated for the "tom" dictionary value;
  * `tC`: the `datetime.now(tz=tz)` used as the base of the result. -/
structure Clock where
  tA : Int
  tB : Int
  tC : Int
  localOffsetMin : Int
deriving DecidableEq, Repr

/-- Day count since 1970-01-01 of the civil date y-m-d
(Howard Hinnant's `days_from_civil`, the arithmetic underlying proleptic
Gregorian `datetime.date`). -/
def daysFromCivil (y : Int) (m : Nat) (d : Nat) : Int :=
  let ys : Int := if m ≤ 2 then y - 1 else y
  let era : Int := ys / 400
  let yoe : Nat := (ys - era * 400).toNat
  let mp : Nat := if m > 2 then m - 3 else m + 9
  let doy : Nat := (153 * mp + 2) / 5 + d - 1
  let doe : Nat := yoe * 365 + yoe / 4 - yoe / 100 + doy
  era * 146097 + (doe : Int) - 719468

/-- Civil date (y, m, d) of a day count since 1970-01-01
(Howard Hinnant's `civil_from_days`). -/
def civilFromDays (z0 : Int) : Int × Nat × Nat :=
  let z : Int := z0 + 719468
  let era : Int := z / 146097
  let doe : Nat := (z - era * 146097).toNat
  let yoe : Nat := (doe - doe / 1460 + doe / 36524 - doe / 146096) / 365
  let doy : Nat := doe - (365 * yoe + yoe / 4 - yoe / 100)
  let mp : Nat := (5 * doy + 2) / 153
  let d : Nat := doy - (153 * mp + 2) / 5 + 1
  let m : Nat := if mp < 10 then mp + 3 else mp - 9
  (((yoe : Int) + era * 400) + (if m ≤ 2 then 1 else 0), m, d)

/-- `calendar.isleap`. -/
def isLeap (y : Int) : Bool :=
  (y % 4 == 0 && y % 100 != 0) || y % 400 == 0

/-- Number of days of month `m` of year `y` (`calendar.monthrange(y, m)[1]`). -/
def daysInMonth (y : Int) (m : Nat) : Nat :=
  if m = 2 then (if isLeap y then 29 else 28)
  else if m = 4 ∨ m = 6 ∨ m = 9 ∨ m = 11 then 30
  else 31

/-- Smallest day number representable by `datetime` (0001-01-01). -/
def minDay : Int := daysFromCivil 1 1 1

/-- Largest day number representable by `datetime` (9999-12-31). -/
def maxDay : Int := daysFromCivil 9999 12 31

/-- A timezone-aware `datetime` at second granularity: wall-clock day number
(days since 1970-01-01 of the local calendar date), second of the day, and
the fixed UTC offset / name of the attached tzinfo. -/
structure Datetime where
  days : Int
  sec : Nat
  tzOffsetMin : Int
  tzName : List Char
deriving DecidableEq, Repr

/-- Seconds since the epoch of the instant an aware `datetime` denotes
(used by aware-datetime subtraction). -/
def Datetime.toEpoch (dt : Datetime) : Int :=
  dt.days * 86400 + (dt.sec : Int) - dt.tzOffsetMin * 60

/-- `datetime.now(tz=tz)` observed at instant `t` (epoch seconds). -/
def dtNow (tz : Tz) (t : Int) : Datetime :=
  let w : Int := t + tz.offsetMin * 60
  ⟨w / 86400, (w % 86400).toNat, tz.offsetMin, tz.name⟩

/-- `datetime.weekday()` of a day number: 0 = Monday .. 6 = Sunday. -/
def weekdayOfDays (days : Int) : Nat :=
  ((days + 3) % 7).toNat

/-- `datetime.now().weekday()` for a naive local-time read at instant `t`
with system-local UTC offset `lo` minutes. -/
def naiveWeekday (t : Int) (lo : Int) : Nat :=
  weekdayOfDays ((t + lo * 60) / 86400)

/-- Lower-casing used for the case-insensitive (`re.IGNORECASE`) matching and
for `.lower()`; ASCII (all pattern letters are ASCII). -/
def lowerChar (c : Char) : Char := c.toLower

/-- Python `\s` on the inputs of interest (ASCII whitespace). -/
def isPySpace (c : Char) : Bool :=
  c == ' ' || c == '\t' || c == '\n' || c == '\r' || c == '\x0b' || c == '\x0c'

/-- Python `\d` (ASCII digits on the inputs of interest). -/
def isPyDigit (c : Char) : Bool := c.isDigit

/-- Length of the leading run of digits (`\d+` / `\d{..}` material). -/
def digitRun : List Char → Nat
  | [] => 0
  | c :: t => if isPyDigit c then digitRun t + 1 else 0

/-- Numeric value of a digit list (`int(v)` on a digit-only capture). -/
def natOfDigits (cs : List Char) : Nat :=
  cs.foldl (fun a c => 10 * a + (c.toNat - 48)) 0

/-- Case-insensitive literal match at the head of the input: the first
`p.length` characters of `cs`, lower-cased, equal `p` (given lower-case). -/
def litCI (p : List Char) (cs : List Char) : Bool :=
  (cs.take p.length).map lowerChar == p

/-- Consumed length of an optional trailing `s` (`s?`). -/
def optS (cs : List Char) : Nat :=
  match cs with
  | c :: _ => if lowerChar c == 's' then 1 else 0
  | [] => 0

/-- Consumed length of an optional literal (`(?:LIT)?`). -/
def optLit (p : List Char) (cs : List Char) : Nat :=
  if litCI p cs then p.length else 0

/-- Consumed length of `(?:MIDs?)?`: optional literal followed by optional
`s`, as in `y(?:ears?)?`'s group. -/
def optMidS (mid : List Char) (cs : List Char) : Nat :=
  if litCI mid cs then mid.length + optS (cs.drop mid.length) else 0

/-- Unit-suffix matchers for the seven clauses of `timedelta_regex`.
Each returns the consumed length of the unit word at the head of the input,
or `none` when the unit word is absent. -/
def unitYears (cs : List Char) : Option Nat :=
  if litCI ['y'] cs then some (1 + optMidS "ear".toList (cs.drop 1)) else none

/-- `months?`. -/
def unitMonths (cs : List Char) : Option Nat :=
  if litCI "month".toList cs then some (5 + optS (cs.drop 5)) else none

/-- `w(?:eeks?)?`. -/
def unitWeeks (cs : List Char) : Option Nat :=
  if litCI ['w'] cs then some (1 + optMidS "eek".toList (cs.drop 1)) else none

/-- `d(?:ays?)?`. -/
def unitDays (cs : List Char) : Option Nat :=
  if litCI ['d'] cs then some (1 + optMidS "ay".toList (cs.drop 1)) else none

/-- `h(?:ours?)?`. -/
def unitHours (cs : List Char) : Option Nat :=
  if litCI ['h'] cs then some (1 + optMidS "our".toList (cs.drop 1)) else none

/-- `m(?:inutes?)?`. -/
def unitMinutes (cs : List Char) : Option Nat :=
  if litCI ['m'] cs then some (1 + optMidS "inute".toList (cs.drop 1)) else none

/-- `s(?:econds?)?`. -/
def unitSeconds (cs : List Char) : Option Nat :=
  if litCI ['s'] cs then some (1 + optMidS "econd".toList (cs.drop 1)) else none

/-- Consumed length of the optional sign in `[-+]?\d+`. -/
def signLen (cs : List Char) : Nat :=
  match cs with
  | '-' :: _ => 1
  | '+' :: _ => 1
  | _ => 0

/-- Sign of the capture: `-1` for a leading `-`, else `1`. -/
def signVal (cs : List Char) : Int :=
  match cs with
  | '-' :: _ => -1
  | _ => 1

/-- Consumed length of a greedy `\s?`. -/
def wsOptLen (cs : List Char) : Nat :=
  match cs with
  | c :: _ => if isPySpace c then 1 else 0
  | [] => 0

/-- One optional clause of `timedelta_regex`:
`(?:(?P<g>[-+]?\d+)\s?UNIT\s?)?`. Returns `some (len, value)` when the clause
participates (consuming `len > 0` characters and capturing `value`), `none`
when it matches empty. After the greedy digit run the optional whitespace is
taken greedily; if the unit word then fails, backtracking cannot help: without
the whitespace the unit would have to start at a whitespace character, and a
shorter digit run would leave a digit where the unit word must start. -/
def unitClause (unit : List Char → Option Nat) (cs : List Char) : Option (Nat × Int) :=
  let rest := cs.drop (signLen cs)
  let ds := digitRun rest
  if ds = 0 then none
  else
    let afterD := rest.drop ds
    let wsLen := wsOptLen afterD
    match unit (afterD.drop wsLen) with
    | none => none
    | some ul =>
      some (signLen cs + ds + wsLen + ul + wsOptLen (afterD.drop (wsLen + ul)),
            signVal cs * (natOfDigits (rest.take ds) : Int))

/-- The field map accumulated by `DateArgument.match` (the Python `params`
dict). Keys `years` .. `seconds` are the relative captures of
`timedelta_regex` (integral floats in Python, hence `Int` here); `weekday`
comes from the weekday table; `hour`/`minute`/`second` are the absolute
captures of `time_regex`. A field is `none` when its key is absent. -/
structure Params where
  years : Option Int := none
  months : Option Int := none
  weeks : Option Int := none
  days : Option Int := none
  hours : Option Int := none
  minutes : Option Int := none
  seconds : Option Int := none
  weekday : Option Nat := none
  hour : Option Nat := none
  minute : Option Nat := none
  second : Option Nat := none
deriving DecidableEq, Repr

/-- `len(params) == 0`. -/
def Params.isEmpty (p : Params) : Bool :=
  p.years.isNone && p.months.isNone && p.weeks.isNone && p.days.isNone &&
  p.hours.isNone && p.minutes.isNone && p.seconds.isNone &&
  p.weekday.isNone && p.hour.isNone && p.minute.isNone && p.second.isNone

/-- One sequential clause of `timedelta_regex`: starting from already-consumed
length `st.1` and fields `st.2`, try the clause at the unconsumed suffix. -/
def tdStep (unit : List Char → Option Nat) (setter : Params → Int → Params)
    (st : Nat × Params) (cs : List Char) : Nat × Params :=
  match unitClause unit (cs.drop st.1) with
  | none => st
  | some lv => (st.1 + lv.1, setter st.2 lv.2)

/-- `timedelta_regex.match(val)`: the seven optional clauses in pattern order
(years, months, weeks, days, hours, minutes, seconds), each anchored where the
previous one stopped. Returns the match length (`found_delta.end()`) and the
captured fields (`found_delta.groupdict()`, absent groups as `none`). -/
def timedelta_regex_match (cs : List Char) : Nat × Params :=
  let s0 : Nat × Params := (0, {})
  let s1 := tdStep unitYears (fun p v => { p with years := some v }) s0 cs
  let s2 := tdStep unitMonths (fun p v => { p with months := some v }) s1 cs
  let s3 := tdStep unitWeeks (fun p v => { p with weeks := some v }) s2 cs
  let s4 := tdStep unitDays (fun p v => { p with days := some v }) s3 cs
  let s5 := tdStep unitHours (fun p v => { p with hours := some v }) s4 cs
  let s6 := tdStep unitMinutes (fun p v => { p with minutes := some v }) s5 cs
  tdStep unitSeconds (fun p v => { p with seconds := some v }) s6 cs

/-- The `(?:rs(?:day)?)?` tail of the `thu` alternative. -/
def thuTail (cs : List Char) : Nat :=
  if litCI "rs".toList cs then 2 + optLit "day".toList (cs.drop 2) else 0

/-- `day_regex.match(val)`: the nine alternatives in pattern order, each
anchored at the start; Python returns the first alternative that matches.
Returns the match length (`found_day.end()`), or `none`. -/
def day_regex_match (cs : List Char) : Option Nat :=
  if litCI "today".toList cs then some 5
  else if litCI "tomorrow".toList cs then some 8
  else if litCI "mon".toList cs then some (3 + optLit "day".toList (cs.drop 3))
  else if litCI "tue".toList cs then
    some (3 + (let s := optS (cs.drop 3); s + optLit "day".toList (cs.drop (3 + s))))
  else if litCI "wed".toList cs then some (3 + optLit "nesday".toList (cs.drop 3))
  else if litCI "thu".toList cs then some (3 + thuTail (cs.drop 3))
  else if litCI "fri".toList cs then some (3 + optLit "day".toList (cs.drop 3))
  else if litCI "sat".toList cs then some (3 + optLit "urday".toList (cs.drop 3))
  else if litCI "sun".toList cs then some (3 + optLit "day".toList (cs.drop 3))
  else none

/-- `date_regex.match(val)` for `(?P<year>\d{4})-(?P<month>\d{1,2})-(?P<day>\d{1,2})`:
match length plus the year/month/day captures. `\d{1,2}` is greedy; for the
month a longer digit run cannot be followed by the required `-` under any
backtracking (the next character would still be a digit), so the month run
must have length 1 or 2 exactly; the day simply takes up to two digits. -/
def date_regex_match (cs : List Char) : Option (Nat × Nat × Nat × Nat) :=
  if digitRun cs < 4 then none
  else
    let ydigits := cs.take 4
    let r1 := cs.drop 4
    match r1 with
    | '-' :: r2 =>
      let mrun := digitRun r2
      if mrun = 0 ∨ mrun > 2 then none
      else
        let mdigits := r2.take mrun
        match r2.drop mrun with
        | '-' :: r3 =>
          let drun := digitRun r3
          if drun = 0 then none
          else
            let dlen := min 2 drun
            let ddigits := r3.take dlen
            some (4 + 1 + mrun + 1 + dlen,
                  natOfDigits ydigits, natOfDigits mdigits, natOfDigits ddigits)
        | _ => none
    | _ => none

/-- The mandatory core of `time_regex`:
`(?P<hour>\d{2})[:.](?P<minute>\d{2})(?:[:.](?P<second>\d{2}))?`.
Returns `(length, hour, minute, second?)`. -/
def timeCore (cs : List Char) : Option (Nat × Nat × Nat × Option Nat) :=
  match cs with
  | h1 :: h2 :: sep :: m1 :: m2 :: rest =>
    if isPyDigit h1 && isPyDigit h2 && (sep == ':' || sep == '.') &&
       isPyDigit m1 && isPyDigit m2 then
      let hv := natOfDigits [h1, h2]
      let mv := natOfDigits [m1, m2]
      match rest with
      | sep2 :: s1 :: s2 :: _ =>
        if (sep2 == ':' || sep2 == '.') && isPyDigit s1 && isPyDigit s2 then
          some (8, hv, mv, some (natOfDigits [s1, s2]))
        else some (5, hv, mv, none)
      | _ => some (5, hv, mv, none)
    else none
  | _ => none

/-- `time_regex.match(val, pos=end)`, applied to the unconsumed suffix:
`(?:\sat\s)?` then the mandatory core. If the optional ` at ` prefix matches
but the core fails after it, Python backtracks to the empty prefix; the core
is then attempted at the original position (where it fails, since that
position holds a whitespace character — kept literally for fidelity). -/
def time_regex_match (cs : List Char) : Option (Nat × Nat × Nat × Option Nat) :=
  let pre : Nat := match cs with
    | a :: b :: c :: d :: _ =>
      if isPySpace a && lowerChar b == 'a' && lowerChar c == 't' && isPySpace d then 4 else 0
    | _ => 0
  match timeCore (cs.drop pre) with
  | some r => some (pre + r.1, r.2)
  | none =>
    if pre = 0 then none
    else match timeCore cs with
      | some r => some r
      | none => none

/-- The weekday dictionary of `DateArgument.match`, looked up at the first
three characters of the input lower-cased. Both `datetime.now()` reads happen
when the dictionary literal is evaluated, before the lookup; a missing key
would raise `KeyError`. -/
def weekdayTable (key : List Char) (ck : Clock) : Except PyError Nat :=
  let tod := naiveWeekday ck.tA ck.localOffsetMin
  let tom := naiveWeekday ck.tB ck.localOffsetMin + 1
  if key = "tod".toList then .ok tod
  else if key = "tom".toList then .ok tom
  else if key = "mon".toList then .ok 0
  else if key = "tue".toList then .ok 1
  else if key = "wed".toList then .ok 2
  else if key = "thu".toList then .ok 3
  else if key = "fri".toList then .ok 4
  else if key = "sat".toList then .ok 5
  else if key = "sun".toList then .ok 6
  else .error .keyError

/-- The weekday/ISO-date stage of `DateArgument.match`'s `else` branch:
the weekday match first, else the ISO-date match — whose branch builds
`params` from `found_delta.groupdict()` (the source reads the delta match,
not the date match). -/
def dayDateStage (val : List Char) (ck : Clock) : Except PyError (Nat × Params) :=
  match day_regex_match val with
  | some e =>
    match weekdayTable ((val.take 3).map lowerChar) ck with
    | .ok w => .ok (e, { weekday := some w })
    | .error er => .error er
  | none =>
    match date_regex_match val with
    | some de =>
      -- `params = {k: int(v) for k, v in found_delta.groupdict().items() if v}`:
      -- the source reads the DELTA captures here, not the date captures
      -- (all absent on this branch, since the delta match consumed nothing)
      .ok (de.1, (timedelta_regex_match val).2)
    | none => .ok (0, {})

/-- The trailing clock-time step of the `else` branch: `time_regex` anchored
at the current consumption offset, its captures merged over the params
(`{**params, **{k: int(v) ...}}`; the keys are disjoint from the delta and
weekday keys, and `second` enters only when its group captured). -/
def timeStage (val : List Char) (ep : Nat × Params) : Nat × Params :=
  match time_regex_match (val.drop ep.1) with
  | some tm =>
    (ep.1 + tm.1,
     { ep.2 with hour := some tm.2.1, minute := some tm.2.2.1, second := tm.2.2.2 })
  | none => ep

/-- The field-accumulation stage of `DateArgument.match` (everything before
the final `datetime.now(tz=tz) + relativedelta(**params)` line): returns the
consumed length `end` and the `params` map.

Mirrors the source control flow: if `timedelta_regex` consumed a nonzero
prefix, its captures are the params and nothing else runs (in particular no
clock-time step); otherwise the weekday/ISO-date stage runs, followed by the
trailing clock-time step at the current offset. -/
def matchParams (val : List Char) (ck : Clock) : Except PyError (Nat × Params) :=
  let fd := timedelta_regex_match val
  if fd.1 > 0 then .ok fd
  else
    match dayDateStage val ck with
    | .ok ep => .ok (timeStage val ep)
    | .error er => .error er

/-- `datetime.now(tz=tz) + relativedelta(**params)`.

Follows `dateutil.relativedelta`: construction folds `weeks` into `days` and
normalizes `months` beyond ±11 into `years` (total-month arithmetic below is
the combined effect), and `weekdays[weekday]` raises `IndexError` when the
weekday field exceeds 6. Addition computes the new year/month, clamps the day
to the month length (`calendar.monthrange`, which rejects years outside
1..9999 like `datetime` does), replaces absolute hour/minute/second fields
(`datetime.replace` validates their ranges), adds the relative fields as one
`timedelta`, and finally jumps forward `(7 - ret.weekday() + weekday) % 7`
days for a weekday field; out-of-range results raise `OverflowError`. -/
def applyRel (p : Params) (dt : Datetime) : Except PyError Datetime :=
  if (p.weekday.getD 0) ≥ 7 then .error .indexError
  else
    let c := civilFromDays dt.days
    let tm : Int := (c.2.1 : Int) - 1 + p.months.getD 0
    let yy : Int := c.1 + p.years.getD 0 + tm / 12
    let mm : Nat := (tm % 12).toNat + 1
    if yy < 1 ∨ yy > 9999 then .error .valueError
    else
      let dd : Nat := min (daysInMonth yy mm) c.2.2
      if (p.hour.getD 0) > 23 then .error .valueError
      else if (p.minute.getD 0) > 59 then .error .valueError
      else if (p.second.getD 0) > 59 then .error .valueError
      else
        let hh := p.hour.getD (dt.sec / 3600)
        let mi := p.minute.getD (dt.sec / 60 % 60)
        let ss := p.second.getD (dt.sec % 60)
        let total : Int :=
          (daysFromCivil yy mm dd + p.days.getD 0 + 7 * p.weeks.getD 0) * 86400
          + ((hh * 3600 + mi * 60 + ss : Nat) : Int)
          + p.hours.getD 0 * 3600 + p.minutes.getD 0 * 60 + p.seconds.getD 0
        let rd : Int := total / 86400
        let rs : Nat := (total % 86400).toNat
        if rd < minDay ∨ rd > maxDay then .error .overflowError
        else
          match p.weekday with
          | none => .ok ⟨rd, rs, dt.tzOffsetMin, dt.tzName⟩
          | some w =>
            let jump : Int := ((7 : Int) - ((rd + 3) % 7) + (w : Int)) % 7
            let rd2 : Int := rd + jump
            if rd2 < minDay ∨ rd2 > maxDay then .error .overflowError
            else .ok ⟨rd2, rs, dt.tzOffsetMin, dt.tzName⟩

/-- `DateArgument.match(val)` (named `matchFn` here since `match` is reserved
in Lean), with the timezone of the caller and the clock reads explicit:
returns the unconsumed suffix `val[end:]` and the computed timestamp, or the
Python exception the call raises. -/
def DateArgument.matchFn (val : List Char) (tz : Tz) (ck : Clock) :
    Except PyError (List Char × Option Datetime) :=
  match matchParams val ck with
  | .error er => .error er
  | .ok ep =>
    if ep.2.isEmpty then .ok (val.drop ep.1, none)
    else
      match applyRel ep.2 (dtNow tz ck.tC) with
      | .error er => .error er
      | .ok dt => .ok (val.drop ep.1, some dt)

/-- `parse_timezone`, with the pytz timezone database abstracted as a lookup
`db` (an unknown name makes `pytz.timezone` raise `UnknownTimeZoneError`,
turned into the user-facing `ArgumentSyntaxError`). -/
def parse_timezone (db : List Char → Option Tz) (val : List Char) :
    Except PyError (Option Tz) :=
  if val = [] then .ok none
  else
    match db val with
    | some tz => .ok (some tz)
    | none => .error (.argumentSyntaxError (val ++ " is not a valid time zone.".toList))

/-- `pluralize(val, unit)`. -/
def pluralize (val : Int) (unit : String) : String :=
  if val = 1 then toString val ++ " " ++ unit
  else toString val ++ " " ++ unit ++ "s"

/-- The final two lines of `format_time`'s relative branch:
`"in " + parts[0]` when there is exactly one part, otherwise
`"in " + ", ".join(parts[:-1]) + f" and {parts[-1]}"` — which indexes an
empty list (raising `IndexError`) when no part is present. -/
def joinParts (parts : List String) : Except PyError String :=
  if parts.length = 1 then .ok ("in " ++ parts.headD "")
  else
    match parts.getLast? with
    | none => .error .indexError
    | some last => .ok ("in " ++ String.intercalate ", " parts.dropLast ++ " and " ++ last)

/-- Weekday name (`%A`). -/
def weekdayName (w : Nat) : String :=
  match w with
  | 0 => "Monday" | 1 => "Tuesday" | 2 => "Wednesday" | 3 => "Thursday"
  | 4 => "Friday" | 5 => "Saturday" | _ => "Sunday"

/-- Month name (`%B`). -/
def monthName (m : Nat) : String :=
  match m with
  | 1 => "January" | 2 => "February" | 3 => "March" | 4 => "April"
  | 5 => "May" | 6 => "June" | 7 => "July" | 8 => "August"
  | 9 => "September" | 10 => "October" | 11 => "November" | _ => "December"

/-- Zero-pad to two digits (`%H`, `%M`, `%S`). -/
def pad2 (n : Nat) : String :=
  if n < 10 then "0" ++ toString n else toString n

/-- `time.strftime("at %H:%M:%S %Z on %A, %B %-d %Y")`. -/
def strftimeAbs (t : Datetime) : String :=
  let c := civilFromDays t.days
  "at " ++ pad2 (t.sec / 3600) ++ ":" ++ pad2 (t.sec / 60 % 60) ++ ":" ++
  pad2 (t.sec % 60) ++ " " ++ String.mk t.tzName ++ " on " ++
  weekdayName (weekdayOfDays t.days) ++ ", " ++ monthName c.2.1 ++ " " ++
  toString c.2.2 ++ " " ++ toString c.1

/-- `format_time(time)`, with the instant observed by its single
`datetime.now(tz=pytz.UTC).replace(microsecond=0)` read passed as `tNow`
(epoch seconds). `time - now` is aware-datetime subtraction;
`timedelta.days` / `timedelta.seconds` are floor quotient and non-negative
remainder by 86400, and the relative branch splits the latter exactly as the
source does (`divmod` by 60 twice). -/
def format_time (time : Datetime) (tNow : Int) : Except PyError String :=
  let delta : Int := time.toEpoch - tNow
  if delta ≤ 7 * 86400 then
    let days : Int := delta / 86400
    let secs : Nat := (delta % 86400).toNat
    let q1 := secs / 60
    let s := secs % 60
    let h := q1 / 60
    let m := q1 % 60
    let parts : List String :=
      (if days > 0 then [pluralize days "day"] else []) ++
      (if h > 0 then [pluralize h "hour"] else []) ++
      (if m > 0 then [pluralize m "minute"] else []) ++
      (if s > 0 then [pluralize s "second"] else [])
    joinParts parts
  else .ok (strftimeAbs time)

/-! ### Companion definitions written from the spec's words (for the
refinement claim about the formatter) -/

/-- The clause decomposition the spec prescribes for the formatter: the
difference (whole seconds) is split by successive division into total whole
days and a remainder; the remaining seconds-of-day are split into hours, then
minutes, then seconds; each nonzero unit contributes a pluralized clause, in
that order. -/
def specClauses (total : Int) : List String :=
  let d : Int := total / 86400
  let rem : Nat := (total % 86400).toNat
  let h : Nat := rem / 3600
  let m : Nat := rem % 3600 / 60
  let s : Nat := rem % 60
  (if d ≠ 0 then [pluralize d "day"] else []) ++
  (if h ≠ 0 then [pluralize h "hour"] else []) ++
  (if m ≠ 0 then [pluralize m "minute"] else []) ++
  (if s ≠ 0 then [pluralize s "second"] else [])

/-- The joining rule the spec prescribes: a single clause renders as
"in X"; several render as a comma list whose final clause is attached with
"and". (The empty case is never reached under the claim's hypotheses.) -/
def specJoin (clauses : List String) : String :=
  match clauses with
  | [x] => "in " ++ x
  | xs => "in " ++ String.intercalate ", " xs.dropLast ++ " and " ++ (xs.getLast?.getD "")

/-! ### Structural lemmas about the matchers -/

theorem unitClause_pos {unit : List Char → Option Nat} {cs : List Char}
    {lv : Nat × Int} (h : unitClause unit cs = some lv) : 0 < lv.1 := by
  simp only [unitClause] at h
  split at h
  · exact absurd h (by simp)
  · split at h
    · exact absurd h (by simp)
    · rename_i hds ul hul
      injection h with h1
      subst h1
      simp only []
      omega

theorem tdStep_end_zero {unit : List Char → Option Nat}
    {setter : Params → Int → Params} {st : Nat × Params} {cs : List Char}
    (h : (tdStep unit setter st cs).1 = 0) : tdStep unit setter st cs = st := by
  unfold tdStep at h ⊢
  cases hc : unitClause unit (cs.drop st.1) with
  | none => rfl
  | some lv =>
    rw [hc] at h
    have := unitClause_pos hc
    simp only [] at h
    omega

/-- If the whole of `timedelta_regex` matched zero characters, no group
captured: the params dict is empty. -/
theorem tdm_end_zero {val : List Char} (h : (timedelta_regex_match val).1 = 0) :
    (timedelta_regex_match val).2 = ({} : Params) := by
  simp only [timedelta_regex_match] at h ⊢
  have e7 := tdStep_end_zero h
  rw [e7] at h
  have e6 := tdStep_end_zero h
  rw [e6] at h
  have e5 := tdStep_end_zero h
  rw [e5] at h
  have e4 := tdStep_end_zero h
  rw [e4] at h
  have e3 := tdStep_end_zero h
  rw [e3] at h
  have e2 := tdStep_end_zero h
  rw [e2] at h
  have e1 := tdStep_end_zero h
  rw [e7, e6, e5, e4, e3, e2, e1]

theorem tdStep_nonempty (unit : List Char → Option Nat)
    (setter : Params → Int → Params) {st : Nat × Params} (cs : List Char)
    (hset : ∀ p v, (setter p v).isEmpty = false)
    (h : st.1 = 0 ∧ st.2 = ({} : Params) ∨ st.2.isEmpty = false) :
    (tdStep unit setter st cs).1 = 0 ∧ (tdStep unit setter st cs).2 = ({} : Params) ∨
      (tdStep unit setter st cs).2.isEmpty = false := by
  unfold tdStep
  cases hc : unitClause unit (cs.drop st.1) with
  | none => exact h
  | some lv => exact Or.inr (hset st.2 lv.2)

/-- If `timedelta_regex` consumed a nonzero prefix, some group captured:
the params dict is non-empty. -/
theorem tdm_end_pos {val : List Char} (h : 0 < (timedelta_regex_match val).1) :
    (timedelta_regex_match val).2.isEmpty = false := by
  simp only [timedelta_regex_match] at h ⊢
  have i0 : ((0 : Nat), ({} : Params)).1 = 0 ∧ ((0 : Nat), ({} : Params)).2 = ({} : Params) ∨
      ((0 : Nat), ({} : Params)).2.isEmpty = false := Or.inl ⟨rfl, rfl⟩
  have i1 := tdStep_nonempty unitYears (fun p v => { p with years := some v }) val
    (by intro p v; simp [Params.isEmpty]) i0
  have i2 := tdStep_nonempty unitMonths (fun p v => { p with months := some v }) val
    (by intro p v; simp [Params.isEmpty]) i1
  have i3 := tdStep_nonempty unitWeeks (fun p v => { p with weeks := some v }) val
    (by intro p v; simp [Params.isEmpty]) i2
  have i4 := tdStep_nonempty unitDays (fun p v => { p with days := some v }) val
    (by intro p v; simp [Params.isEmpty]) i3
  have i5 := tdStep_nonempty unitHours (fun p v => { p with hours := some v }) val
    (by intro p v; simp [Params.isEmpty]) i4
  have i6 := tdStep_nonempty unitMinutes (fun p v => { p with minutes := some v }) val
    (by intro p v; simp [Params.isEmpty]) i5
  have i7 := tdStep_nonempty unitSeconds (fun p v => { p with seconds := some v }) val
    (by intro p v; simp [Params.isEmpty]) i6
  rcases i7 with ⟨h0, _⟩ | hne
  · omega
  · exact hne

theorem tdStep_preserve (unit : List Char → Option Nat)
    (setter : Params → Int → Params) {st : Nat × Params} (cs : List Char)
    (hset : ∀ p v, (setter p v).weekday = p.weekday ∧ (setter p v).hour = p.hour ∧
      (setter p v).minute = p.minute ∧ (setter p v).second = p.second)
    (h : st.2.weekday = none ∧ st.2.hour = none ∧ st.2.minute = none ∧ st.2.second = none) :
    (tdStep unit setter st cs).2.weekday = none ∧ (tdStep unit setter st cs).2.hour = none ∧
      (tdStep unit setter st cs).2.minute = none ∧ (tdStep unit setter st cs).2.second = none := by
  unfold tdStep
  cases hc : unitClause unit (cs.drop st.1) with
  | none => exact h
  | some lv =>
    obtain ⟨hw, hh, hm, hs⟩ := hset st.2 lv.2
    simp only []
    rw [hw, hh, hm, hs]
    exact h

/-- `timedelta_regex` captures only relative fields: its params never hold
a weekday or an absolute hour/minute/second. -/
theorem tdm_abs_none (val : List Char) :
    (timedelta_regex_match val).2.weekday = none ∧
      (timedelta_regex_match val).2.hour = none ∧
      (timedelta_regex_match val).2.minute = none ∧
      (timedelta_regex_match val).2.second = none := by
  simp only [timedelta_regex_match]
  have i0 : ((0 : Nat), ({} : Params)).2.weekday = none ∧
      ((0 : Nat), ({} : Params)).2.hour = none ∧
      ((0 : Nat), ({} : Params)).2.minute = none ∧
      ((0 : Nat), ({} : Params)).2.second = none := ⟨rfl, rfl, rfl, rfl⟩
  have i1 := tdStep_preserve unitYears (fun p v => { p with years := some v }) val
    (by intro p v; exact ⟨rfl, rfl, rfl, rfl⟩) i0
  have i2 := tdStep_preserve unitMonths (fun p v => { p with months := some v }) val
    (by intro p v; exact ⟨rfl, rfl, rfl, rfl⟩) i1
  have i3 := tdStep_preserve unitWeeks (fun p v => { p with weeks := some v }) val
    (by intro p v; exact ⟨rfl, rfl, rfl, rfl⟩) i2
  have i4 := tdStep_preserve unitDays (fun p v => { p with days := some v }) val
    (by intro p v; exact ⟨rfl, rfl, rfl, rfl⟩) i3
  have i5 := tdStep_preserve unitHours (fun p v => { p with hours := some v }) val
    (by intro p v; exact ⟨rfl, rfl, rfl, rfl⟩) i4
  have i6 := tdStep_preserve unitMinutes (fun p v => { p with minutes := some v }) val
    (by intro p v; exact ⟨rfl, rfl, rfl, rfl⟩) i5
  exact tdStep_preserve unitSeconds (fun p v => { p with seconds := some v }) val
    (by intro p v; exact ⟨rfl, rfl, rfl, rfl⟩) i6


theorem take3_of_litCI {p val : List Char} (h : litCI p val = true) (h3 : 3 ≤ p.length) :
    (val.take 3).map lowerChar = p.take 3 := by
  simp only [litCI, beq_iff_eq] at h
  have hv : val.take 3 = (val.take p.length).take 3 := by
    rw [List.take_take, Nat.min_eq_left h3]
  rw [hv, List.map_take, h]

/-- Whenever `day_regex` matches, the first three characters of the input
lower-cased are a key of the weekday dictionary, so the lookup cannot raise
`KeyError`. -/
theorem weekdayTable_ok {val : List Char} {e : Nat} (ck : Clock)
    (h : day_regex_match val = some e) :
    ∃ w, weekdayTable ((val.take 3).map lowerChar) ck = .ok w := by
  unfold day_regex_match at h
  split_ifs at h with h1 h2 h3 h4 h5 h6 h7 h8 h9
  · rw [take3_of_litCI h1 (by decide)]
    exact ⟨_, rfl⟩
  · rw [take3_of_litCI h2 (by decide)]
    exact ⟨_, rfl⟩
  · rw [take3_of_litCI h3 (by decide)]
    exact ⟨_, rfl⟩
  · rw [take3_of_litCI h4 (by decide)]
    exact ⟨_, rfl⟩
  · rw [take3_of_litCI h5 (by decide)]
    exact ⟨_, rfl⟩
  · rw [take3_of_litCI h6 (by decide)]
    exact ⟨_, rfl⟩
  · rw [take3_of_litCI h7 (by decide)]
    exact ⟨_, rfl⟩
  · rw [take3_of_litCI h8 (by decide)]
    exact ⟨_, rfl⟩
  · rw [take3_of_litCI h9 (by decide)]
    exact ⟨_, rfl⟩

/-- The day/date stage never raises. -/
theorem dayDateStage_total (val : List Char) (ck : Clock) :
    ∃ ep, dayDateStage val ck = .ok ep := by
  unfold dayDateStage
  cases hd : day_regex_match val with
  | some e =>
    obtain ⟨w, hw⟩ := weekdayTable_ok ck hd
    rw [hw]
    exact ⟨_, rfl⟩
  | none =>
    cases date_regex_match val with
    | some de => exact ⟨_, rfl⟩
    | none => exact ⟨_, rfl⟩

/-- The field-accumulation stage never raises. -/
theorem matchParams_total (val : List Char) (ck : Clock) :
    ∃ ep, matchParams val ck = .ok ep := by
  simp only [matchParams]
  split
  · exact ⟨_, rfl⟩
  · obtain ⟨ep, hep⟩ := dayDateStage_total val ck
    rw [hep]
    exact ⟨_, rfl⟩

/-- `relativedelta` construction and application can only raise the
index/value/overflow errors of field application. -/
theorem applyRel_error {p : Params} {dt : Datetime} {er : PyError}
    (h : applyRel p dt = .error er) :
    er = .indexError ∨ er = .valueError ∨ er = .overflowError := by
  simp only [applyRel] at h
  split_ifs at h with c1 c2 c3 c4 c5 c6
  · exact Or.inl (by injection h with h1; exact h1.symm)
  · exact Or.inr (Or.inl (by injection h with h1; exact h1.symm))
  · exact Or.inr (Or.inl (by injection h with h1; exact h1.symm))
  · exact Or.inr (Or.inl (by injection h with h1; exact h1.symm))
  · exact Or.inr (Or.inl (by injection h with h1; exact h1.symm))
  · exact Or.inr (Or.inr (by injection h with h1; exact h1.symm))
  · split at h
    · exact absurd h (by simp)
    · split_ifs at h with c7
      · exact Or.inr (Or.inr (by injection h with h1; exact h1.symm))

theorem joinParts_error {l : List String} {er : PyError} (h : joinParts l = .error er) :
    er = .indexError := by
  unfold joinParts at h
  split_ifs at h with h1
  cases hl : l.getLast? with
  | none =>
    rw [hl] at h
    injection h with h2
    exact h2.symm
  | some last =>
    rw [hl] at h
    exact Except.noConfusion h

/-- The whole of `DateArgument.match` can fail only with the index/value/
overflow errors of timestamp computation — never with a `KeyError` from the
weekday table and never with a timezone validation error. -/
theorem matchFn_error {val : List Char} {tz : Tz} {ck : Clock} {er : PyError}
    (h : DateArgument.matchFn val tz ck = .error er) :
    er = .indexError ∨ er = .valueError ∨ er = .overflowError := by
  unfold DateArgument.matchFn at h
  obtain ⟨ep, hep⟩ := matchParams_total val ck
  rw [hep] at h
  simp only [] at h
  split_ifs at h with he
  cases ha : applyRel ep.2 (dtNow tz ck.tC) with
  | error e2 =>
    rw [ha] at h
    injection h with h1
    exact h1 ▸ applyRel_error ha
  | ok dt2 =>
    rw [ha] at h
    exact Except.noConfusion h

theorem parse_timezone_error {db : List Char → Option Tz} {v : List Char}
    {er : PyError} (h : parse_timezone db v = .error er) :
    er = .argumentSyntaxError (v ++ " is not a valid time zone.".toList) := by
  unfold parse_timezone at h
  split_ifs at h with h1
  cases hd : db v with
  | some tz =>
    rw [hd] at h
    exact Except.noConfusion h
  | none =>
    rw [hd] at h
    injection h with h2
    exact h2.symm

/-- Applying `relativedelta(weekday=w+1, hour=9, minute=0)` — the params of
"tomorrow at 09:00" — to a datetime whose civil decomposition round-trips:
the result is the next calendar day (day number + 1) at 09:00 with the
second carried over unchanged, provided the weekday is not Sunday (offset 7
would raise `IndexError`) and no overflow occurs. -/
theorem applyRel_tomorrow (dt : Datetime) (y : Int) (m d : Nat)
    (hciv : civilFromDays dt.days = (y, m, d))
    (hy : 1 ≤ y ∧ y ≤ 9999) (hm : 1 ≤ m ∧ m ≤ 12) (hd : d ≤ daysInMonth y m)
    (hback : daysFromCivil y m d = dt.days)
    (hsun : weekdayOfDays dt.days ≠ 6)
    (hrange : minDay ≤ dt.days ∧ dt.days + 1 ≤ maxDay) :
    applyRel { weekday := some (weekdayOfDays dt.days + 1), hour := some 9,
               minute := some 0 } dt =
      .ok ⟨dt.days + 1, 32400 + dt.sec % 60, dt.tzOffsetMin, dt.tzName⟩ := by
  have hwd : weekdayOfDays dt.days ≤ 6 := by unfold weekdayOfDays; omega
  have e1 : y + 0 + ((m : Int) - 1 + 0) / 12 = y := by omega
  have e2 : (((m : Int) - 1 + 0) % 12).toNat + 1 = m := by omega
  simp only [weekdayOfDays] at hsun hwd ⊢
  simp only [applyRel, hciv, Option.getD_some, Option.getD_none, e1, e2,
    min_eq_right hd, hback]
  split_ifs with c1 c2 c3 c4 c5 c6
  · exact absurd c1 (by omega)
  · exact absurd c2 (by omega)
  · exact absurd c3 (by omega)
  · exact absurd c4 (by omega)
  · exact absurd c5 (by omega)
  · exact absurd c6 (by omega)
  · simp only [Except.ok.injEq, Datetime.mk.injEq]
    refine ⟨by omega, by omega, trivial, trivial⟩

theorem joinParts_ok {l : List String} (h : l ≠ []) : joinParts l = .ok (specJoin l) := by
  cases l with
  | nil => exact absurd rfl h
  | cons a t =>
    cases t with
    | nil => rfl
    | cons b t2 =>
      unfold joinParts specJoin
      rw [if_neg (by simp)]
      cases hl : (a :: b :: t2).getLast? with
      | none => exact absurd (List.getLast?_eq_none_iff.mp hl) (by simp)
      | some last => simp [hl]

theorem specClauses_ne (dl : Int) (h0 : 0 < dl) : specClauses dl ≠ [] := by
  simp only [specClauses]
  split_ifs with c1 c2 c3 c4
  all_goals first
    | (exfalso; omega)
    | simp

/-- The formatter's clause list (division by 60 twice, as the source codes
it) equals the spec's clause list (division by 3600 and 60, as the spec
words it). -/
theorem clauses_eq (dl : Int) (h0 : 0 < dl) :
    (if dl / 86400 > 0 then [pluralize (dl / 86400) "day"] else []) ++
      (if (dl % 86400).toNat / 60 / 60 > 0 then
        [pluralize (((dl % 86400).toNat / 60 / 60 : Nat) : Int) "hour"] else []) ++
      (if (dl % 86400).toNat / 60 % 60 > 0 then
        [pluralize (((dl % 86400).toNat / 60 % 60 : Nat) : Int) "minute"] else []) ++
      (if (dl % 86400).toNat % 60 > 0 then
        [pluralize (((dl % 86400).toNat % 60 : Nat) : Int) "second"] else []) =
      specClauses dl := by
  simp only [specClauses]
  have a1 : (dl % 86400).toNat / 60 / 60 = (dl % 86400).toNat / 3600 := by omega
  have a2 : (dl % 86400).toNat / 60 % 60 = (dl % 86400).toNat % 3600 / 60 := by omega
  rw [a1, a2]
  simp only [show (dl / 86400 > 0) ↔ (dl / 86400 ≠ 0) from by omega,
    show ∀ k : Nat, (k > 0 ↔ k ≠ 0) from fun k => by omega]

/-- When the accumulated field map is empty, the consumed length is zero
unless the ISO-date sub-grammar matched (whose branch contributes no fields
but does consume the date prefix). -/
theorem matchParams_none {val : List Char} {ck : Clock} {ep : Nat × Params}
    (hep : matchParams val ck = .ok ep) (he : ep.2.isEmpty = true) :
    ep.1 = 0 ∨ ∃ de, date_regex_match val = some de ∧ ep.1 = de.1 := by
  simp only [matchParams] at hep
  split_ifs at hep with hdlt
  · injection hep with h1
    have := tdm_end_pos hdlt
    rw [h1] at this
    rw [this] at he
    exact Bool.noConfusion he
  · obtain ⟨ep2, hs⟩ := dayDateStage_total val ck
    rw [hs] at hep
    simp only [] at hep
    injection hep with h1
    unfold timeStage at h1
    cases ht : time_regex_match (val.drop ep2.1) with
    | some tm =>
      rw [ht] at h1
      rw [← h1] at he
      simp [Params.isEmpty] at he
    | none =>
      rw [ht] at h1
      subst h1
      unfold dayDateStage at hs
      cases hday : day_regex_match val with
      | some e =>
        rw [hday] at hs
        obtain ⟨w, hw⟩ := weekdayTable_ok ck hday
        rw [hw] at hs
        injection hs with h2
        rw [← h2] at he
        simp [Params.isEmpty] at he
      | none =>
        rw [hday] at hs
        cases hdate : date_regex_match val with
        | some de =>
          rw [hdate] at hs
          injection hs with h2
          exact Or.inr ⟨de, rfl, by rw [← h2]⟩
        | none =>
          rw [hdate] at hs
          injection hs with h2
          exact Or.inl (by rw [← h2])

/-! ### The claims -/

/-- C1 (counterexample): parsing "2d at 14:30" leaves the " at 14:30" suffix
unconsumed (remaining text "at 14:30", not empty) and the result carries no
absolute hour/minute — the clock-time step did not run after the
relative-delta match, contradicting the claim that it is always attempted. -/
theorem C1_counterexample :
    DateArgument.matchFn "2d at 14:30".toList pytzUTC
      ⟨19889 * 86400 + 45296, 19889 * 86400 + 45296, 19889 * 86400 + 45296, 0⟩ =
      .ok ("at 14:30".toList, some ⟨19891, 45296, 0, "UTC".toList⟩) ∧
    "at 14:30".toList ≠ ([] : List Char) := by
  exact ⟨by rfl, by decide⟩

/-- C1 (amended): the trailing clock-time match is attempted only when the
relative-delta sub-grammar consumed nothing; when it consumed a nonzero
prefix, the accumulated fields are exactly the delta captures — which never
contain an absolute hour, minute or second — so no " at HH:MM" suffix is
consumed or merged. -/
theorem C1_theorem (val : List Char) (ck : Clock)
    (h : 0 < (timedelta_regex_match val).1) :
    matchParams val ck = .ok (timedelta_regex_match val) ∧
      (timedelta_regex_match val).2.hour = none ∧
      (timedelta_regex_match val).2.minute = none ∧
      (timedelta_regex_match val).2.second = none := by
  refine ⟨?_, (tdm_abs_none val).2.1, (tdm_abs_none val).2.2.1, (tdm_abs_none val).2.2.2⟩
  simp only [matchParams]
  rw [if_pos h]

/-- C1 witness: the amended statement instantiated at "2d at 14:30". -/
theorem C1_witness :
    matchParams "2d at 14:30".toList ⟨0, 0, 0, 0⟩ =
      .ok (timedelta_regex_match "2d at 14:30".toList) ∧
      (timedelta_regex_match "2d at 14:30".toList).2.hour = none ∧
      (timedelta_regex_match "2d at 14:30".toList).2.minute = none ∧
      (timedelta_regex_match "2d at 14:30".toList).2.second = none :=
  C1_theorem "2d at 14:30".toList ⟨0, 0, 0, 0⟩ (by decide)

/-- C2 (the code evaluated at the failing input): with the clock at
2024-06-15 12:34:56 UTC, parsing "2024-05-01 at 10:00" consumes everything
but returns 2024-06-15 10:00:56 — the matched year/month/day never become
fields because the branch reads the (empty) delta captures, so the result's
day number is today's (19889), not that of 2024-05-01. -/
theorem C2_theorem :
    DateArgument.matchFn "2024-05-01 at 10:00".toList pytzUTC
      ⟨19889 * 86400 + 45296, 19889 * 86400 + 45296, 19889 * 86400 + 45296, 0⟩ =
      .ok ([], some ⟨19889, 36056, 0, "UTC".toList⟩) ∧
    (19889 : Int) ≠ daysFromCivil 2024 5 1 := by
  exact ⟨by rfl, by decide⟩

/-- C3 (counterexample): parse raises — "99:99" matches the clock-time
grammar, and replacing hour=99 raises a ValueError, which propagates out of
`DateArgument.match`. -/
theorem C3_counterexample :
    DateArgument.matchFn "99:99".toList pytzUTC ⟨0, 0, 0, 0⟩ = .error .valueError := by
  rfl

/-- C3 (amended): parse and format can raise — parse with the ValueError /
IndexError / OverflowError of timestamp-field application (out-of-range
clock fields, weekday offset 7, date overflow) and format with the
IndexError of the empty clause list — but nothing else: parse never raises
a KeyError from the weekday table, and the only other failure in the module
is parse_timezone's recoverable validation error, whose message carries the
offending value. -/
theorem C3_theorem (val : List Char) (tz : Tz) (ck : Clock) (t : Datetime)
    (tNow : Int) (db : List Char → Option Tz) (v : List Char) :
    (∀ er, DateArgument.matchFn val tz ck = .error er →
      er = .indexError ∨ er = .valueError ∨ er = .overflowError) ∧
    (∀ er, format_time t tNow = .error er → er = .indexError) ∧
    (∀ er, parse_timezone db v = .error er →
      er = .argumentSyntaxError (v ++ " is not a valid time zone.".toList)) := by
  refine ⟨fun er h => matchFn_error h, ?_, fun er h => parse_timezone_error h⟩
  intro er h
  simp only [format_time] at h
  split_ifs at h
  all_goals exact joinParts_error h

/-- C3 witness: the amended statement applied to the raising input "99:99". -/
theorem C3_witness :
    DateArgument.matchFn "99:99".toList pytzUTC ⟨0, 0, 0, 0⟩ = .error .valueError ∧
    (PyError.valueError = .indexError ∨ PyError.valueError = .valueError ∨
      PyError.valueError = .overflowError) :=
  ⟨by rfl,
    ( C3_theorem "99:99".toList pytzUTC ⟨0, 0, 0, 0⟩ ⟨0, 0, 0, []⟩ 0 (fun _ => none) []).1
      PyError.valueError (by rfl)⟩

/-- C4 (counterexample): with target equal to now the formatter raises an
IndexError (the clause list is empty and `parts[-1]` indexes it) instead of
returning the degenerate string "in ". -/
theorem C4_counterexample :
    format_time ⟨19889, 45296, 0, "UTC".toList⟩ (19889 * 86400 + 45296) =
      .error .indexError ∧
    (Except.error .indexError : Except PyError String) ≠ .ok "in " := by
  refine ⟨by rfl, fun hc => Except.noConfusion hc⟩

/-- C4 (amended): when the target equals now (difference exactly zero, so no
unit is nonzero) `format_time` raises IndexError — the degenerate "in "
string is never produced, because the final line indexes the empty clause
list. -/
theorem C4_theorem (t : Datetime) (tNow : Int) (h : t.toEpoch = tNow) :
    format_time t tNow = .error .indexError := by
  unfold format_time
  rw [h, sub_self]
  norm_num [joinParts]

/-- C4 witness: the amended statement at a concrete zero-difference input. -/
theorem C4_witness :
    format_time ⟨19889, 45296, 0, "UTC".toList⟩ ((19889 : Int) * 86400 + 45296) =
      .error .indexError :=
  C4_theorem _ _ (by decide)

/-- C5 (counterexample): "2024-05-01" matches the ISO-date sub-grammar but
contributes no fields (the branch reads the delta captures), so parse
returns no timestamp while the remaining text is empty — not the whole
original input. -/
theorem C5_counterexample :
    DateArgument.matchFn "2024-05-01".toList pytzUTC ⟨0, 0, 0, 0⟩ =
      .ok ([], none) ∧
    ([] : List Char) ≠ "2024-05-01".toList := by
  exact ⟨by rfl, by decide⟩

/-- C5 (amended): whenever parse returns no timestamp, the remaining text is
the entire original input unless the ISO-date sub-grammar matched, in which
case the matched date prefix is consumed even though it contributed no
fields; in particular parse("buy milk") returns the input verbatim with no
timestamp. -/
theorem C5_theorem (val : List Char) (tz : Tz) (ck : Clock) (rem : List Char)
    (h : DateArgument.matchFn val tz ck = .ok (rem, none)) :
    rem = val ∨ ∃ de, date_regex_match val = some de ∧ rem = val.drop de.1 := by
  unfold DateArgument.matchFn at h
  obtain ⟨ep, hep⟩ := matchParams_total val ck
  rw [hep] at h
  simp only [] at h
  split_ifs at h with he
  · injection h with h1
    have hrem : rem = val.drop ep.1 := (congrArg Prod.fst h1).symm
    rcases matchParams_none hep he with h0 | ⟨de, hde, hde1⟩
    · left
      rw [hrem, h0, List.drop_zero]
    · right
      exact ⟨de, hde, by rw [hrem, hde1]⟩
  · cases ha : applyRel ep.2 (dtNow tz ck.tC) with
    | error e2 =>
      rw [ha] at h
      exact Except.noConfusion h
    | ok dt2 =>
      rw [ha] at h
      injection h with h1
      exact Option.noConfusion (congrArg Prod.snd h1)

/-- C5 witness: "buy milk" evaluates to (original input, no timestamp), and
the amended statement applies to it. -/
theorem C5_witness :
    DateArgument.matchFn "buy milk".toList pytzUTC ⟨0, 0, 0, 0⟩ =
      .ok ("buy milk".toList, none) ∧
    ("buy milk".toList = "buy milk".toList ∨
      ∃ de, date_regex_match "buy milk".toList = some de ∧
        "buy milk".toList = "buy milk".toList.drop de.1) :=
  ⟨by rfl, C5_theorem "buy milk".toList pytzUTC ⟨0, 0, 0, 0⟩ "buy milk".toList (by rfl)⟩

/-- C6 (counterexample): with the clock at 2024-06-15 12:34:56 UTC (a
Saturday), parse("tomorrow at 09:00") returns the next day at 09:00:56 —
the second is carried over from now (32456 seconds-of-day), not set to 0, so
the timestamp is not exactly 09:00:00. -/
theorem C6_counterexample :
    DateArgument.matchFn "tomorrow at 09:00".toList pytzUTC
      ⟨19889 * 86400 + 45296, 19889 * 86400 + 45296, 19889 * 86400 + 45296, 0⟩ =
      .ok ([], some ⟨19890, 32456, 0, "UTC".toList⟩) ∧ 32456 ≠ 9 * 3600 := by
  exact ⟨by rfl, by decide⟩

/-- C6 (amended): when all clock reads observe the same instant, the system
local zone is the reference zone, today is not a Sunday (a Sunday makes the
weekday offset 7 and raises IndexError), the result does not overflow, and
the civil decomposition of the current date round-trips (always true of
Gregorian dates; carried as hypotheses), parse("tomorrow at 09:00") returns
empty remaining text and a timestamp on the next calendar day (day number
plus one) whose hour is 9 and minute 0 absolutely but whose second is
carried over from now — not 09:00:00 exactly unless now's second is zero. -/
theorem C6_theorem (tz : Tz) (t : Int) (y : Int) (m d : Nat)
    (hciv : civilFromDays (dtNow tz t).days = (y, m, d))
    (hy : 1 ≤ y ∧ y ≤ 9999) (hm : 1 ≤ m ∧ m ≤ 12) (hd : d ≤ daysInMonth y m)
    (hback : daysFromCivil y m d = (dtNow tz t).days)
    (hsun : weekdayOfDays (dtNow tz t).days ≠ 6)
    (hrange : minDay ≤ (dtNow tz t).days ∧ (dtNow tz t).days + 1 ≤ maxDay) :
    DateArgument.matchFn "tomorrow at 09:00".toList tz ⟨t, t, t, tz.offsetMin⟩ =
      .ok ([], some ⟨(dtNow tz t).days + 1, 32400 + (dtNow tz t).sec % 60,
                     tz.offsetMin, tz.name⟩) := by
  have hdds : dayDateStage "tomorrow at 09:00".toList ⟨t, t, t, tz.offsetMin⟩ =
      .ok (8, { weekday := some (naiveWeekday t tz.offsetMin + 1) }) := rfl
  have hmp : matchParams "tomorrow at 09:00".toList ⟨t, t, t, tz.offsetMin⟩ =
      .ok (17, { weekday := some (naiveWeekday t tz.offsetMin + 1),
                 hour := some 9, minute := some 0 }) := by
    simp only [matchParams]
    rw [if_neg (by decide), hdds]
    rfl
  have hw : naiveWeekday t tz.offsetMin = weekdayOfDays (dtNow tz t).days := rfl
  unfold DateArgument.matchFn
  simp only [hmp]
  rw [if_neg (by simp [Params.isEmpty])]
  rw [hw]
  have hap := applyRel_tomorrow (dtNow tz t) y m d hciv hy hm hd hback hsun hrange
  simp only [show (⟨t, t, t, tz.offsetMin⟩ : Clock).tC = t from rfl, hap]
  rfl

/-- C6 witness: the amended statement at 2024-06-15 12:34:56 UTC. -/
theorem C6_witness :
    DateArgument.matchFn "tomorrow at 09:00".toList pytzUTC
      ⟨19889 * 86400 + 45296, 19889 * 86400 + 45296, 19889 * 86400 + 45296, 0⟩ =
      .ok ([], some ⟨19890, 32456, 0, "UTC".toList⟩) := by
  have h := C6_theorem pytzUTC (19889 * 86400 + 45296) 2024 6 15 (by decide)
    (by decide) (by decide) (by decide) (by decide) (by decide) (by decide)
  exact h

/-- C7: for every target with 0 < target − now ≤ 7 days (whole seconds), the
formatter decomposes the difference by successive division into whole days
and the hours, minutes and seconds of the remaining seconds-of-day, renders
each nonzero unit as a pluralized clause, and joins them as "in X" for one
clause or a comma list with a final "and" for several — exactly the spec's
prescription, stated here as equality with the spec-worded rendering. -/
theorem C7_theorem (t : Datetime) (tNow : Int)
    (h0 : 0 < t.toEpoch - tNow) (h7 : t.toEpoch - tNow ≤ 7 * 86400) :
    format_time t tNow = .ok (specJoin (specClauses (t.toEpoch - tNow))) := by
  simp only [format_time]
  rw [if_pos h7]
  rw [clauses_eq (t.toEpoch - tNow) h0]
  exact joinParts_ok (specClauses_ne _ h0)

/-- C7 witness: format(now + 90s, now) = "in 1 minute and 30 seconds". -/
theorem C7_witness :
    format_time ⟨19889, 45386, 0, "UTC".toList⟩ ((19889 : Int) * 86400 + 45296) =
      .ok "in 1 minute and 30 seconds" := by
  have h := C7_theorem ⟨19889, 45386, 0, "UTC".toList⟩ ((19889 : Int) * 86400 + 45296)
    (by decide) (by decide)
  rw [h]
  rfl

/-- C8: parsing is purely prefix-anchored — every successful result's
remaining text is a suffix obtained by dropping a consumed prefix — and the
three sub-grammars are tried in the fixed order relative-delta, weekday,
ISO-date with the first that consumes a nonzero prefix winning exclusively:
a nonzero delta match makes the result exactly the delta captures (no other
matcher consulted); with a zero delta match a weekday match decides the
stage regardless of the date matcher; and only with both failing does the
date matcher decide. -/
theorem C8_theorem (val : List Char) (tz : Tz) (ck : Clock) :
    (∀ r, DateArgument.matchFn val tz ck = .ok r → ∃ n, r.1 = val.drop n) ∧
    (0 < (timedelta_regex_match val).1 →
      matchParams val ck = .ok (timedelta_regex_match val)) ∧
    (∀ e, (timedelta_regex_match val).1 = 0 → day_regex_match val = some e →
      ∃ w, weekdayTable ((val.take 3).map lowerChar) ck = .ok w ∧
        matchParams val ck = .ok (timeStage val (e, { weekday := some w }))) ∧
    (∀ de, (timedelta_regex_match val).1 = 0 → day_regex_match val = none →
      date_regex_match val = some de →
      matchParams val ck = .ok (timeStage val (de.1, ({} : Params)))) := by
  refine ⟨?_, ?_, ?_, ?_⟩
  · intro r hr
    unfold DateArgument.matchFn at hr
    obtain ⟨ep, hep⟩ := matchParams_total val ck
    rw [hep] at hr
    simp only [] at hr
    split_ifs at hr with he
    · exact ⟨ep.1, (congrArg Prod.fst (by injection hr)).symm⟩
    · cases ha : applyRel ep.2 (dtNow tz ck.tC) with
      | error e2 =>
        rw [ha] at hr
        exact Except.noConfusion hr
      | ok dt2 =>
        rw [ha] at hr
        exact ⟨ep.1, (congrArg Prod.fst (by injection hr)).symm⟩
  · intro hpos
    simp only [matchParams]
    rw [if_pos hpos]
  · intro e h0 hday
    obtain ⟨w, hw⟩ := weekdayTable_ok ck hday
    refine ⟨w, hw, ?_⟩
    have hdds : dayDateStage val ck = .ok (e, { weekday := some w }) := by
      unfold dayDateStage
      rw [hday, hw]
    simp only [matchParams]
    rw [if_neg (by omega), hdds]
  · intro de h0 hday hdate
    have hdds : dayDateStage val ck = .ok (de.1, ({} : Params)) := by
      unfold dayDateStage
      rw [hday, hdate, tdm_end_zero h0]
    simp only [matchParams]
    rw [if_neg (by omega), hdds]

/-- C8 witness: the weekday-priority conjunct at "tomorrow at 09:00". -/
theorem C8_witness :
    ∃ w, weekdayTable (("tomorrow at 09:00".toList.take 3).map lowerChar) ⟨0, 0, 0, 0⟩ =
        .ok w ∧
      matchParams "tomorrow at 09:00".toList ⟨0, 0, 0, 0⟩ =
        .ok (timeStage "tomorrow at 09:00".toList (8, { weekday := some w })) :=
  ( C8_theorem "tomorrow at 09:00".toList pytzUTC ⟨0, 0, 0, 0⟩).2.2.1 8 (by decide) (by rfl)

/-- C9: resolveTimezone("") is a no-op returning the no-preference outcome
without error; any name the timezone database does not know fails with the
recoverable validation error whose message carries the offending value; and
a known name returns the corresponding timezone. -/
theorem C9_theorem (db : List Char → Option Tz) (v : List Char) (tz : Tz) :
    parse_timezone db [] = .ok none ∧
    (v ≠ [] → db v = none →
      parse_timezone db v =
        .error (.argumentSyntaxError (v ++ " is not a valid time zone.".toList))) ∧
    (v ≠ [] → db v = some tz → parse_timezone db v = .ok (some tz)) := by
  refine ⟨rfl, ?_, ?_⟩
  · intro hv hdb
    unfold parse_timezone
    rw [if_neg hv, hdb]
  · intro hv hdb
    unfold parse_timezone
    rw [if_neg hv, hdb]

/-- C9 witness: a one-entry database rejects "Not/AZone" with the validation
error and accepts "UTC". -/
theorem C9_witness :
    parse_timezone (fun s => if s = "UTC".toList then some pytzUTC else none)
        "Not/AZone".toList =
      .error (.argumentSyntaxError
        ("Not/AZone".toList ++ " is not a valid time zone.".toList)) ∧
    parse_timezone (fun s => if s = "UTC".toList then some pytzUTC else none)
        "UTC".toList = .ok (some pytzUTC) :=
  ⟨(C9_theorem (fun s => if s = "UTC".toList then some pytzUTC else none)
      "Not/AZone".toList pytzUTC).2.1 (by decide) (by decide),
   (C9_theorem (fun s => if s = "UTC".toList then some pytzUTC else none)
      "UTC".toList pytzUTC).2.2 (by decide) (by decide)⟩

/-- C10 (counterexample): two runs of parse("today") whose first clock read
is the same instant (2024-06-16 23:59:59 UTC, a Sunday) but whose base-
timestamp read differs by one second return different timestamps — one week
apart — so a call's result is not a function of a single per-call instant:
distinct sub-steps observe distinct "now"s. -/
theorem C10_counterexample :
    DateArgument.matchFn "today".toList pytzUTC
      ⟨19890 * 86400 + 86399, 19890 * 86400 + 86399, 19890 * 86400 + 86399, 0⟩ =
      .ok ([], some ⟨19890, 86399, 0, "UTC".toList⟩) ∧
    DateArgument.matchFn "today".toList pytzUTC
      ⟨19890 * 86400 + 86399, 19890 * 86400 + 86399, 19891 * 86400, 0⟩ =
      .ok ([], some ⟨19897, 0, 0, "UTC".toList⟩) ∧
    (⟨19890, 86399, 0, "UTC".toList⟩ : Datetime) ≠ ⟨19897, 0, 0, "UTC".toList⟩ := by
  exact ⟨by rfl, by rfl, by decide⟩

/-- C10 (amended): parse reads the clock up to three times (twice while
building the weekday table, once for the base timestamp); the weekday-table
reads influence the result only when the weekday/keyword sub-grammar fires,
so whenever the relative delta fired or no weekday keyword matches, the
result is a function of the text, the timezone and the base-timestamp read
alone. -/
theorem C10_theorem (val : List Char) (tz : Tz) (ckA ckB : Clock)
    (hgram : 0 < (timedelta_regex_match val).1 ∨ day_regex_match val = none)
    (hC : ckA.tC = ckB.tC) :
    DateArgument.matchFn val tz ckA = DateArgument.matchFn val tz ckB := by
  have hmp : matchParams val ckA = matchParams val ckB := by
    simp only [matchParams]
    rcases hgram with hd | hd
    · rw [if_pos hd, if_pos hd]
    · have hs : dayDateStage val ckA = dayDateStage val ckB := by
        unfold dayDateStage
        rw [hd]
      rw [hs]
  unfold DateArgument.matchFn
  rw [hmp, hC]

/-- C10 witness: for "2d" the weekday-table reads and the local offset are
irrelevant — only the base-timestamp read matters. -/
theorem C10_witness :
    DateArgument.matchFn "2d".toList pytzUTC ⟨5, 6, 7, 8⟩ =
      DateArgument.matchFn "2d".toList pytzUTC ⟨9, 10, 7, 11⟩ :=
  C10_theorem "2d".toList pytzUTC ⟨5, 6, 7, 8⟩ ⟨9, 10, 7, 11⟩ (Or.inl (by decide)) rfl
